import Mathlib

/-!
Verification development for the `game-recommendations` scraper
(`src/scraper.py`).  The Python source is shallowly embedded: pure string
helpers become Lean functions on `List Char` / `String`, the `SteamAPI`
client is modelled over a small JSON datatype with Python exceptions as
`Except`, the `DatabaseManager` state becomes an explicit `Store` record
(the SQL text of the queries lives in `schema.yaml`, which is not part of
`src/`; those operations are modelled from the spec and marked as such),
and the orchestrator loop `SteamScraperApplication.run` becomes a
recursive function over the list of app ids, with the nondeterministic
`random.shuffle` taken as an explicit function parameter and
interrupt/persistence faults injected through an environment record.
-/

namespace GameRec

/-! ### Python string primitives -/

/-- Python `str.strip()` whitespace set (ASCII part; the scraper only ever
strips spaces produced by its own replacements plus `\t \n \r \x0b \x0c`). -/
def pySpace (c : Char) : Bool :=
  c = ' ' || c = '\t' || c = '\n' || c = '\r' || c = Char.ofNat 11 || c = Char.ofNat 12

/-- Python `s.strip()` on a character list. -/
def pyStrip (l : List Char) : List Char :=
  ((l.dropWhile pySpace).reverse.dropWhile pySpace).reverse

/-- Substring test, Python `needle in hay`. -/
def containsSub (needle : List Char) : List Char → Bool
  | [] => needle.isPrefixOf ([] : List Char)
  | c :: rest => needle.isPrefixOf (c :: rest) || containsSub needle rest

/-- One pass of `re.sub(r'<[^>]*>', ' ', text)`: a `<` opens a buffer that
is replaced by a single space at the first following `>`; a `<` with no
later `>` stays literal (the buffered characters are emitted unchanged at
the end of the input). -/
def stripTagsGo : Option (List Char) → List Char → List Char
  | none, [] => []
  | some buf, [] => buf.reverse
  | none, c :: rest =>
    if c = '<' then stripTagsGo (some [c]) rest else c :: stripTagsGo none rest
  | some buf, c :: rest =>
    if c = '>' then ' ' :: stripTagsGo none rest else stripTagsGo (some (c :: buf)) rest

/-- Python `str.replace(pat, rep)`: left-to-right, non-overlapping.  The
fuel argument (initialised to the input length) only serves structural
recursion; every step consumes at least one input character. -/
def replaceSubFuel (pat rep : List Char) : Nat → List Char → List Char
  | _, [] => []
  | 0, l => l
  | fuel + 1, c :: rest =>
    if pat ≠ [] ∧ pat.isPrefixOf (c :: rest) then
      rep ++ replaceSubFuel pat rep fuel ((c :: rest).drop pat.length)
    else
      c :: replaceSubFuel pat rep fuel rest

def replaceSub (pat rep l : List Char) : List Char :=
  replaceSubFuel pat rep l.length l

/-- `SteamScraperApplication.sanitize_text` (scraper.py:561-567).
`None`/empty input is falsy and yields `''`; otherwise `\n`, `\r`, `\t`
are each replaced by a space, HTML tags are replaced by single spaces,
`&quot;` and `&amp;` are unescaped, and the ends are stripped. -/
def sanitize_text (text : Option String) : String :=
  match text with
  | none => ""
  | some s =>
    if s = "" then ""
    else
      let cs := s.data.map (fun c => if c = '\n' || c = '\r' || c = '\t' then ' ' else c)
      let cs := stripTagsGo none cs
      let cs := replaceSub "&quot;".data "\"".data cs
      let cs := replaceSub "&amp;".data "&".data cs
      String.mk (pyStrip cs)

/-! ### Date parsing (`parse_steam_date`, scraper.py:569-581)

`datetime.strptime` with the formats `'%d %b %Y'` and `'%b %d %Y'` is
embedded: `%d` matches one or two digits valued 1..31 (regex
`3[01]|[12]\d|0[1-9]|[1-9]`, alternatives tried in order with
backtracking into the continuation), `%b` matches a three-letter English
month abbreviation case-insensitively, `%Y` matches exactly four digits,
literal spaces in the format match one or more whitespace characters,
the whole string must be consumed, and the resulting date must be a
valid calendar date with year at least 1 (otherwise `ValueError`, i.e.
`none` here). -/

def digitVal (c : Char) : Nat := c.toNat - 48

def monthAbbrevs : List (String × Nat) :=
  [("jan", 1), ("feb", 2), ("mar", 3), ("apr", 4), ("may", 5), ("jun", 6),
   ("jul", 7), ("aug", 8), ("sep", 9), ("oct", 10), ("nov", 11), ("dec", 12)]

/-- Format-literal whitespace: `\s+` (at least one whitespace char). -/
def skipWs1 : List Char → Option (List Char)
  | [] => none
  | c :: rest => if pySpace c then some (rest.dropWhile pySpace) else none

/-- The `%d` alternatives in regex order: a two-digit day (30, 31, 10-29,
01-09) and then a bare one-digit day 1-9, each with the rest of the
input. -/
def dayCandidates : List Char → List (Nat × List Char)
  | [] => []
  | [c1] => if c1.isDigit && '1' ≤ c1 then [(digitVal c1, [])] else []
  | c1 :: c2 :: rest =>
    if c1.isDigit && c2.isDigit then
      let v := digitVal c1 * 10 + digitVal c2
      (if (v = 30 || v = 31) || (10 ≤ v && v ≤ 29) || (c1 = '0' && 1 ≤ digitVal c2) then
        [(v, rest)] else [])
      ++ (if '1' ≤ c1 then [(digitVal c1, c2 :: rest)] else [])
    else if c1.isDigit && '1' ≤ c1 then [(digitVal c1, c2 :: rest)]
    else []

/-- `%b`: three letters, case-insensitive month abbreviation. -/
def parseMonth : List Char → Option (Nat × List Char)
  | c1 :: c2 :: c3 :: rest =>
    match monthAbbrevs.lookup (String.mk [c1.toLower, c2.toLower, c3.toLower]) with
    | some m => some (m, rest)
    | none => none
  | _ => none

/-- `%Y`: exactly four digits. -/
def parseYear4 : List Char → Option (Nat × List Char)
  | a :: b :: c :: d :: rest =>
    if a.isDigit && b.isDigit && c.isDigit && d.isDigit then
      some (digitVal a * 1000 + digitVal b * 100 + digitVal c * 10 + digitVal d, rest)
    else none
  | _ => none

def isLeap (y : Nat) : Bool := (y % 4 = 0 && y % 100 ≠ 0) || y % 400 = 0

def daysInMonth (y m : Nat) : Nat :=
  if m = 2 then (if isLeap y then 29 else 28)
  else if m = 4 || m = 6 || m = 9 || m = 11 then 30
  else 31

/-- Continuation after the day of `'%d %b %Y'`: whitespace, month,
whitespace, four-digit year, end of input. -/
def finishMonthYear (rest : List Char) : Option (Nat × Nat) := do
  let r1 ← skipWs1 rest
  let (m, r2) ← parseMonth r1
  let r3 ← skipWs1 r2
  let (y, r4) ← parseYear4 r3
  if r4 = [] then some (m, y) else none

def firstDayMatch : List (Nat × List Char) → Option (Nat × Nat × Nat)
  | [] => none
  | (dv, rest) :: more =>
    match finishMonthYear rest with
    | some (m, y) => some (dv, m, y)
    | none => firstDayMatch more

/-- `datetime.strptime(s, '%d %b %Y')`, returning `(year, month, day)`. -/
def strptime_d_b_Y (cs : List Char) : Option (Nat × Nat × Nat) :=
  match firstDayMatch (dayCandidates cs) with
  | some (dv, m, y) => if 1 ≤ y && dv ≤ daysInMonth y m then some (y, m, dv) else none
  | none => none

/-- Continuation after the day of `'%b %d %Y'`: whitespace, four-digit
year, end of input. -/
def finishYear (rest : List Char) : Option Nat := do
  let r1 ← skipWs1 rest
  let (y, r2) ← parseYear4 r1
  if r2 = [] then some y else none

def firstDayYearMatch : List (Nat × List Char) → Option (Nat × Nat)
  | [] => none
  | (dv, rest) :: more =>
    match finishYear rest with
    | some y => some (dv, y)
    | none => firstDayYearMatch more

/-- `datetime.strptime(s, '%b %d %Y')`, returning `(year, month, day)`. -/
def strptime_b_d_Y (cs : List Char) : Option (Nat × Nat × Nat) := do
  let (m, r1) ← parseMonth cs
  let r2 ← skipWs1 r1
  match firstDayYearMatch (dayCandidates r2) with
  | some (dv, y) => if 1 ≤ y && dv ≤ daysInMonth y m then some (y, m, dv) else none
  | none => none

/-- `re.sub(r'(\d+)(st|nd|rd|th)', r'\1', s)` helper: drop one ordinal
suffix if it starts the list (the suffix is case-sensitive, as in the
source regex). -/
def dropOrd (l : List Char) : List Char :=
  match l with
  | a :: b :: rest =>
    if (a = 's' && b = 't') || (a = 'n' && b = 'd') ||
       (a = 'r' && b = 'd') || (a = 't' && b = 'h') then rest else l
  | _ => l

/-- Scan for the ordinal-suffix substitution: each maximal digit run is
kept and an immediately following `st`/`nd`/`rd`/`th` is dropped.  Fuel
is the input length; every step consumes at least one character. -/
def stripOrdGo : Nat → List Char → List Char
  | 0, l => l
  | _ + 1, [] => []
  | fuel + 1, c :: rest =>
    if c.isDigit then
      (c :: rest).takeWhile Char.isDigit
        ++ stripOrdGo fuel (dropOrd ((c :: rest).dropWhile Char.isDigit))
    else c :: stripOrdGo fuel rest

def stripOrdinals (l : List Char) : List Char := stripOrdGo l.length l

def pad2 (n : Nat) : String := if n < 10 then "0" ++ toString n else toString n

def pad4 (n : Nat) : String :=
  if n < 10 then "000" ++ toString n
  else if n < 100 then "00" ++ toString n
  else if n < 1000 then "0" ++ toString n
  else toString n

def formatYmd (y m d : Nat) : String := pad4 y ++ "-" ++ pad2 m ++ "-" ++ pad2 d

/-- `SteamScraperApplication.parse_steam_date` (scraper.py:569-581):
empty or `coming_soon`-containing strings yield `None`; otherwise commas
are removed, ordinal suffixes after digit runs are dropped, and the two
`strptime` layouts are tried in order, formatting a hit as
`'%Y-%m-%d'`. -/
def parse_steam_date (date_str : String) : Option String :=
  if date_str = "" || containsSub "coming_soon".data date_str.data then none
  else
    let cleaned := stripOrdinals (date_str.data.filter (fun c => c ≠ ','))
    match strptime_d_b_Y cleaned with
    | some (y, m, d) => some (formatYmd y m d)
    | none =>
      match strptime_b_d_Y cleaned with
      | some (y, m, d) => some (formatYmd y m d)
      | none => none

/-! ### Price parsing (`price_to_float`, scraper.py:594-602)

The Python function returns a `float`; both the matched decimal text and
the literals of the spec pass through the same decimal-notation reading,
so the value is modelled exactly as a rational. -/

def digitsToNat (l : List Char) : Nat :=
  l.foldl (fun acc c => acc * 10 + digitVal c) 0

/-- `re.search(r'([0-9]+\.?[0-9]*)', t)`: leftmost match starts at the
first digit; the integer part is the maximal digit run, a directly
following dot is consumed, and the fraction is the following maximal
digit run. -/
def findNum : List Char → Option (List Char × List Char)
  | [] => none
  | c :: rest =>
    if c.isDigit then
      let ip := (c :: rest).takeWhile Char.isDigit
      match (c :: rest).dropWhile Char.isDigit with
      | '.' :: rest2 => some (ip, rest2.takeWhile Char.isDigit)
      | _ => some (ip, [])
    else findNum rest

def ratOfDigits (ip fp : List Char) : ℚ :=
  (digitsToNat ip : ℚ) + (digitsToNat fp : ℚ) / ((10 : ℚ) ^ fp.length)

/-- `SteamScraperApplication.price_to_float` (scraper.py:594-602):
commas are normalised to dots, then the first decimal number is
extracted; no match yields `0.0`. -/
def price_to_float (price_text : String) : ℚ :=
  match findNum (price_text.data.map (fun c => if c = ',' then '.' else c)) with
  | some (ip, fp) => ratOfDigits ip fp
  | none => 0

/-! ### JSON values and Python-level dict/list operations

Used to embed the `SteamAPI` fetchers (scraper.py:79-163), whose failure
behaviour on raw response bodies is what claim C4 is about. -/

inductive Json where
  | null
  | boolean (b : Bool)
  | num (n : Int)
  | str (s : String)
  | arr (elems : List Json)
  | obj (fields : List (String × Json))

/-- Python truthiness of a JSON value. -/
def pyTruthy : Json → Bool
  | .null => false
  | .boolean b => b
  | .num n => n != 0
  | .str s => s != ""
  | .arr [] => false
  | .arr (_ :: _) => true
  | .obj [] => false
  | .obj (_ :: _) => true

/-- The Python exceptions the fetchers can raise past `_do_requests`. -/
inductive PyExc where
  | keyError
  | typeError
  | attributeError
  | valueError
deriving DecidableEq

def objGet : List (String × Json) → String → Option Json
  | [], _ => none
  | (k, v) :: rest, key => if k = key then some v else objGet rest key

/-- Python subscription `j[key]` with a string key: `KeyError` on a dict
missing the key, `TypeError` on any non-dict. -/
def getItem (j : Json) (key : String) : Except PyExc Json :=
  match j with
  | .obj fields =>
    match objGet fields key with
    | some v => .ok v
    | none => .error .keyError
  | _ => .error .typeError

/-- Python `j.get(key, default)`: only dicts have `.get`
(`AttributeError` otherwise). -/
def pyGet (j : Json) (key : String) (default : Json) : Except PyExc Json :=
  match j with
  | .obj fields => .ok ((objGet fields key).getD default)
  | _ => .error .attributeError

def isStrEq (j : Json) (s : String) : Bool :=
  match j with
  | .str t => t = s
  | _ => false

/-- Python `key in j` for a string key: dict key test, list membership,
substring test on strings, `TypeError` on scalars. -/
def pyContains (j : Json) (key : String) : Except PyExc Bool :=
  match j with
  | .obj fields => .ok (objGet fields key).isSome
  | .arr l => .ok (l.any (fun x => isStrEq x key))
  | .str s => .ok (containsSub key.data s.data)
  | _ => .error .typeError

/-- Python iteration `for x in j`: lists yield elements, dicts yield their
keys, strings yield one-character strings, scalars raise `TypeError`. -/
def pyIter (j : Json) : Except PyExc (List Json) :=
  match j with
  | .arr l => .ok l
  | .obj fields => .ok (fields.map (fun kv => Json.str kv.1))
  | .str s => .ok (s.data.map (fun c => Json.str (String.mk [c])))
  | _ => .error .typeError

/-- Python `str(j)` for the scalar values the scraper renders; container
rendering is never relied on by any claim. -/
def pyStr : Json → String
  | .null => "None"
  | .boolean b => if b then "True" else "False"
  | .num n => toString n
  | .str s => s
  | .arr _ => "[...]"
  | .obj _ => "{...}"

def isEmptyList (j : Json) : Bool :=
  match j with
  | .arr [] => true
  | _ => false

/-- Python `float(j)`; completion percentages are modelled as integers
(no claim depends on fractional arithmetic), so `round(_, 4)` is the
identity here. -/
def pyFloat (j : Json) : Except PyExc Int :=
  match j with
  | .num n => .ok n
  | .boolean b => .ok (if b then 1 else 0)
  | .str s =>
    if s ≠ "" ∧ s.data.all Char.isDigit then .ok (digitsToNat s.data : Int)
    else .error .valueError
  | _ => .error .typeError

/-- Python `int(s)` on a string. -/
def pyInt (s : String) : Except PyExc Int :=
  if s ≠ "" ∧ s.data.all Char.isDigit then .ok (digitsToNat s.data : Int)
  else .error .valueError

/-! ### SteamAPI (scraper.py:79-163) -/

/-- What one HTTP round trip can yield before `_do_requests` error
handling is applied.  `okMalformed` is a 2xx response whose non-empty
body fails JSON decoding; `response.json()` then raises
`requests.exceptions.JSONDecodeError`, a `RequestException` subclass,
which the `except` clause also catches. -/
inductive HttpOutcome where
  | transportFail
  | badStatus
  | okEmpty
  | okMalformed
  | okBody (body : Json)

def emptyDict : Json := .obj []

/-- `SteamAPI._do_requests` (scraper.py:91-99): timeouts, transport
errors, non-2xx statuses (`raise_for_status`) and JSON decode errors are
all caught as `RequestException` and degraded to `{}`; an empty 2xx body
is also `{}`; otherwise the parsed body is returned. -/
def do_requests : HttpOutcome → Json
  | .okBody b => b
  | _ => emptyDict

/-- `SteamAPI.get_all_app_ids` (scraper.py:102-113).  The cache parameter
stands for `applist.json` when it exists.  On the network path the body
is indexed as `data['applist']['apps']` and each element as
`str(data['appid'])` with no error handling. -/
def get_all_app_ids (cached : Option (List String)) (resp : HttpOutcome) :
    Except PyExc (List String) :=
  match cached with
  | some l => .ok l
  | none => do
    let app_list_data := do_requests resp
    let applist ← getItem app_list_data "applist"
    let apps ← getItem applist "apps"
    let items ← pyIter apps
    items.mapM (fun d => do
      let a ← getItem d "appid"
      pure (pyStr a))

/-- `SteamAPI.get_app_details` (scraper.py:116-121): a falsy body yields
`None`; otherwise `data[appid]['success']` gates `data[appid]['data']`,
with no handling for a body of unexpected shape. -/
def get_app_details (appid : String) (resp : HttpOutcome) :
    Except PyExc (Option Json) := do
  let data := do_requests resp
  if pyTruthy data = false then
    return none
  let entry ← getItem data appid
  let succ ← getItem entry "success"
  if pyTruthy succ then
    let d ← getItem entry "data"
    return some d
  else
    return none

/-- `SteamAPI.get_steamspy_details` (scraper.py:124-126):
`data if data and data.get('developer') else None`. -/
def get_steamspy_details (resp : HttpOutcome) : Except PyExc (Option Json) := do
  let data := do_requests resp
  if pyTruthy data = false then
    return none
  let dev ← pyGet data "developer" Json.null
  if pyTruthy dev then return some data else return none

/-- One achievement record as built by `get_achievements`
(scraper.py:144-146). -/
structure AchRecord where
  app_id : Int
  api_name : String
  display_name : Json
  description : Json
  global_completion_rate : Int

def lookupPercent : List (String × Json) → String → Option Json
  | [], _ => none
  | (k, v) :: rest, key => if k = key then some v else lookupPercent rest key

/-- `SteamAPI.get_achievements` (scraper.py:129-149).  The function body
is wrapped in `try/except` that re-raises (`raise e`), so every error
still propagates; the embedding therefore keeps the raw `Except`.
Percentage-map keys are rendered with `pyStr` on both build and lookup;
the dict comprehension's duplicate-key last-wins nuance is not relied on
by any claim. -/
def get_achievements (appid : String) (schemaResp percentResp : HttpOutcome) :
    Except PyExc (List AchRecord) := do
  let schema_data := do_requests schemaResp
  if pyTruthy schema_data = false then
    return []
  let hasGame ← pyContains schema_data "game"
  if hasGame = false then
    return []
  let game ← getItem schema_data "game"
  let hasStats ← pyContains game "availableGameStats"
  if hasStats = false then
    return []
  let stats ← getItem game "availableGameStats"
  let achievements ← pyGet stats "achievements" (Json.arr [])
  if isEmptyList achievements then
    return []
  let percent_data := do_requests percentResp
  let percentages ←
    (if pyTruthy percent_data then do
      let ap ← pyGet percent_data "achievementpercentages" emptyDict
      let achs ← pyGet ap "achievements" (Json.arr [])
      let items ← pyIter achs
      items.mapM (fun item => do
        let n ← getItem item "name"
        let p ← getItem item "percent"
        pure (pyStr n, p))
    else pure [])
  let achList ← pyIter achievements
  let appIdInt ← pyInt appid
  achList.mapM (fun a => do
    let nm ← getItem a "name"
    let dn ← pyGet a "displayName" Json.null
    let ds ← pyGet a "description" Json.null
    let rate ← pyFloat ((lookupPercent percentages (pyStr nm)).getD (Json.num 0))
    pure { app_id := appIdInt, api_name := pyStr nm, display_name := dn,
           description := ds, global_completion_rate := rate })

def pyEqOne (j : Json) : Bool :=
  match j with
  | .num 1 => true
  | .boolean true => true
  | _ => false

/-- `SteamAPI.get_reviews` (scraper.py:152-163): `data.get("reviews", [])
== []` short-circuits to `[]`; otherwise `data["reviews"]` is kept when
truthy and `data.get('success') == 1`, and the result is iterated into a
list. -/
def get_reviews (appid : String) (resp : HttpOutcome) : Except PyExc (List Json) := do
  let data := do_requests resp
  let r0 ← pyGet data "reviews" (Json.arr [])
  if isEmptyList r0 then
    return []
  let rv ← getItem data "reviews"
  let succ ← pyGet data "success" Json.null
  let reviews := if pyTruthy rv && pyEqOne succ then rv else Json.arr []
  let l ← pyIter reviews
  return l

/-! ### Typed payloads for the normalizer and orchestrator

`_parse_app_data` and `run` consume app-detail payloads that
`get_app_details` returned; for those layers the payload is modelled with
the typed shape the code reads (nested `.get` chains become nested
`Option` records).  `required_age` is modelled as already numeric
(`int(str(x).replace('+',''))` in the source); no claim depends on that
conversion. -/

structure FullgameBlock where
  appid : Option Int

structure ReleaseDateBlock where
  date : Option String

structure PriceOverview where
  final_formatted : Option String

structure RecommendationsBlock where
  total : Option Int

structure MetacriticBlock where
  score : Option Int
  url : Option String

structure PlatformsBlock where
  windows : Option Bool
  mac : Option Bool
  linux : Option Bool

structure AchievementsBlock where
  total : Option Int

structure AppDetails where
  steam_appid : Int
  type : Option String
  name : Option String
  fullgame : Option FullgameBlock
  release_date : Option ReleaseDateBlock
  price_overview : Option PriceOverview
  recommendations : Option RecommendationsBlock
  metacritic : Option MetacriticBlock
  platforms : Option PlatformsBlock
  required_age : Option Int
  achievements : Option AchievementsBlock
  header_image : Option String
  about_the_game : Option String
  detailed_description : Option String
  short_description : Option String
  reviews : Option String
  supported_languages : Option String
  developers : List String
  publishers : List String
  categories : List String
  genres : List String

/-- Result of `get_steamspy_details` as consumed by `_parse_app_data`
(after the `developer`-field guard).  `tags_is_list` mirrors the
`isinstance(tags, list)` placeholder case handled in
`add_app_and_relations`. -/
structure SpyDetails where
  positive : Option Int
  negative : Option Int
  ccu : Option Int
  owners : Option String
  userscore : Option Int
  score_rank : Option String
  tags : List (String × Int)
  tags_is_list : Bool

/-- The `main_data` dict of `_parse_app_data` (scraper.py:488-500).
`price` is modelled as an exact rational (see `price_to_float`). -/
structure MainData where
  id : Int
  type : Option String
  name : String
  base_game_id : Option Int
  release_date : Option String
  price : ℚ
  positive_reviews : Int
  negative_reviews : Int
  recommendations : Int
  peak_ccu : Int
  metacritic_score : Int
  metacritic_url : Option String
  required_age : Int
  achievements_count : Int
  supports_windows : Bool
  supports_mac : Bool
  supports_linux : Bool
  header_image_url : Option String
  estimated_owners : Option String
  user_score : Int
  score_rank : Option String
  about_the_game : String
  detailed_description : String
  short_description : String
  reviews_summary : String
deriving DecidableEq

/-- The dict returned by `_parse_app_data` (scraper.py:550-559).  The
`main_tuple` of the source lists the `MainData` fields except
`base_game_id` (which the tuple omits); both views are represented by
the single `main` record here. -/
structure ParsedData where
  main : MainData
  base_game_id : Option Int
  developers : List String
  publishers : List String
  categories : List String
  genres : List String
  supported_languages : List String
  full_audio_languages : List String
  tags : List (String × Int)
  tags_is_list : Bool
deriving DecidableEq

def stripStr (s : String) : String := String.mk (pyStrip s.data)

def removeStar (s : String) : String := String.mk (s.data.filter (fun c => c ≠ '*'))

def lastIsStar (s : String) : Bool :=
  match s.data.getLast? with
  | some c => c = '*'
  | none => false

/-- The supported/full-audio language loop of `_parse_app_data`
(scraper.py:529-538): split the sanitized string on commas, strip, drop
empties; a language keeps its `*`-less name and a trailing `*` also
records it as full-audio. -/
def langLists (langs : List String) : List String × List String :=
  langs.foldl
    (fun acc lang =>
      let clean := stripStr (removeStar lang)
      if clean ≠ "" then
        (acc.1 ++ [clean], if lastIsStar lang then acc.2 ++ [clean] else acc.2)
      else acc)
    ([], [])

def splitLanguages (raw : Option String) : List String :=
  ((sanitize_text raw).splitOn ",").map stripStr |>.filter (fun l => l ≠ "")

/-- `main_data` as first initialised (scraper.py:488-500). -/
def baseMain (d : AppDetails) : MainData :=
  { id := d.steam_appid
    type := d.type
    name := sanitize_text d.name
    base_game_id := d.fullgame.bind (fun f => f.appid)
    release_date := parse_steam_date ((d.release_date.bind (fun r => r.date)).getD "")
    price := 0
    positive_reviews := 0
    negative_reviews := 0
    recommendations := 0
    peak_ccu := 0
    metacritic_score := 0
    metacritic_url := none
    required_age := 0
    achievements_count := 0
    supports_windows := false
    supports_mac := false
    supports_linux := false
    header_image_url := d.header_image
    estimated_owners := none
    user_score := 0
    score_rank := none
    about_the_game := sanitize_text d.about_the_game
    detailed_description := sanitize_text d.detailed_description
    short_description := sanitize_text d.short_description
    reviews_summary := sanitize_text d.reviews }

/-- `if 'price_overview' in app_details:` (scraper.py:501-503). -/
def applyPrice (d : AppDetails) (m : MainData) : MainData :=
  match d.price_overview with
  | some po => { m with price := price_to_float (po.final_formatted.getD "") }
  | none => m

/-- `if 'recommendations' in app_details:` (scraper.py:504-505). -/
def applyRecommendations (d : AppDetails) (m : MainData) : MainData :=
  match d.recommendations with
  | some r => { m with recommendations := r.total.getD 0 }
  | none => m

/-- `if 'metacritic' in app_details:` (scraper.py:506-508). -/
def applyMetacritic (d : AppDetails) (m : MainData) : MainData :=
  match d.metacritic with
  | some mc => { m with metacritic_score := mc.score.getD 0, metacritic_url := mc.url }
  | none => m

/-- `if 'platforms' in app_details:` (scraper.py:509-514). -/
def applyPlatforms (d : AppDetails) (m : MainData) : MainData :=
  match d.platforms with
  | some p =>
    { m with supports_windows := p.windows.getD false
             supports_mac := p.mac.getD false
             supports_linux := p.linux.getD false }
  | none => m

def removeCommasStr (s : String) : String :=
  String.mk (s.data.filter (fun c => c ≠ ','))

/-- `if app_type == "game":` block (scraper.py:516-526): required age,
achievement count, and the SteamSpy enrichment overlay. -/
def applyGameFields (d : AppDetails) (spy : Option SpyDetails) (m : MainData) : MainData :=
  if d.type = some "game" then
    let m1 := { m with required_age := d.required_age.getD 0 }
    let m2 :=
      match d.achievements with
      | some a => { m1 with achievements_count := a.total.getD 0 }
      | none => m1
    match spy with
    | some sp =>
      { m2 with positive_reviews := sp.positive.getD 0
                negative_reviews := sp.negative.getD 0
                peak_ccu := sp.ccu.getD 0
                estimated_owners := some (removeCommasStr (sp.owners.getD "0 - 20000"))
                user_score := sp.userscore.getD 0
                score_rank := some (sp.score_rank.getD "") }
    | none => m2
  else m

/-- `SteamScraperApplication._parse_app_data` (scraper.py:485-559). -/
def parse_app_data (d : AppDetails) (spy : Option SpyDetails) : ParsedData :=
  let m := applyGameFields d spy
    (applyPlatforms d (applyMetacritic d (applyRecommendations d (applyPrice d (baseMain d)))))
  let langs := splitLanguages d.supported_languages
  let pair := langLists langs
  { main := m
    base_game_id := d.fullgame.bind (fun f => f.appid)
    developers := d.developers
    publishers := d.publishers
    categories := d.categories
    genres := d.genres
    supported_languages := pair.1
    full_audio_languages := pair.2
    tags := match spy with | some sp => sp.tags | none => []
    tags_is_list := match spy with | some sp => sp.tags_is_list | none => false }

/-! ### Catalog store (`DatabaseManager`, scraper.py:165-358)

The concrete SQL text of the queries lives in `schema.yaml`, which is not
part of `src/`; each operation whose behaviour is determined by that SQL
carries a `Modelled from the spec:` note and follows the contract stated
in spec §3/§4.3. -/

/-- One review record as read from a raw review dict by `add_reviews`
(scraper.py:336-342); `datetime.fromtimestamp` is modelled by keeping the
epoch seconds. -/
structure ReviewIn where
  recommendationid : String
  author_steamid : Option String
  language : Option String
  review : Option String
  voted_up : Option Bool
  votes_up : Option Int
  votes_funny : Option Int
  timestamp_created : Int

structure ReviewRow where
  recommendationid : String
  author : Option String
  language : Option String
  text : String
  voted_up : Option Bool
  votes_up : Option Int
  votes_funny : Option Int
  created : Int

/-- An `apps` table row: the inserted tuple plus the `base_game_id`
column, which the insert tuple omits and which is only ever written by
`resolve_pending_dlc_links`. -/
structure AppRow where
  main : MainData
  parent : Option Int

/-- The durable state owned by `DatabaseManager`.  Lookup surrogate ids
are elided: links are keyed by (table, app id, entity name), faithful to
the spec's name-is-natural-key contract for lookup entities (§3). -/
structure Store where
  ledger : List (Int × String)
  apps : List (Int × AppRow)
  pendingDlc : List (Int × Int)
  entityLinks : List (String × Int × String)
  langLinks : List (Int × String × Bool)
  tagLinks : List (Int × String × Int)
  achRows : List AchRecord
  reviewRows : List ReviewRow
  reviewLinks : List (String × String)

def emptyStore : Store :=
  { ledger := [], apps := [], pendingDlc := [], entityLinks := [], langLinks := []
    tagLinks := [], achRows := [], reviewRows := [], reviewLinks := [] }

def upsertAssoc : List (Int × String) → Int → String → List (Int × String)
  | [], id, v => [(id, v)]
  | (k, w) :: rest, id, v =>
    if k = id then (k, v) :: rest else (k, w) :: upsertAssoc rest id v

/-- Modelled from the spec: the `mark_processed` SQL (schema.yaml, not in
src) keeps exactly one current status per item id, last-write-wins
(spec §3 Processing Status, §9).  `DatabaseManager.mark_as_processed`,
scraper.py:257-258. -/
def mark_as_processed (s : Store) (appid : Int) (status : String) : Store :=
  { s with ledger := upsertAssoc s.ledger appid status }

/-- Modelled from the spec: the `is_processed` SQL (schema.yaml, not in
src) tests whether the id has any row in the status ledger
(spec §3: the ledger is the sole source of truth for already-done).
`DatabaseManager.is_processed`, scraper.py:239-248. -/
def is_processed (s : Store) (appid : Int) : Bool :=
  (s.ledger.lookup appid).isSome

/-- Modelled from the spec: the `all_prcoessed` query (schema.yaml, not
in src) returns every app id present in the status ledger.
`DatabaseManager.get_all_processed_app_ids`, scraper.py:201-206. -/
def get_all_processed_app_ids (s : Store) : List Int :=
  s.ledger.map (fun kv => kv.1)

/-- Modelled from the spec: the `add_pending_dlc` insert (schema.yaml,
not in src) appends to the deferred-link set and is safe to repeat for
the same pair (spec §4.3 `recordDeferredLink`).
`DatabaseManager.add_pending_dlc_link`, scraper.py:270-273. -/
def add_pending_dlc_link (s : Store) (dlc_id base_game_id : Int) : Store :=
  if (dlc_id, base_game_id) ∈ s.pendingDlc then s
  else { s with pendingDlc := s.pendingDlc ++ [(dlc_id, base_game_id)] }

def setParent : List (Int × AppRow) → Int → Int → List (Int × AppRow)
  | [], _, _ => []
  | (k, row) :: rest, a, p =>
    if k = a then (k, { row with parent := some p }) :: rest
    else (k, row) :: setParent rest a p

/-- Modelled from the spec: the `resolve_dlc_links` /
`clear_resolved_dlc_links` SQL (schema.yaml, not in src) — for every
deferred pair whose parent item now exists, set the addon's parent
reference and remove the pair; pairs whose parent is still absent are
kept (spec §3 Deferred Link, §4.3 `resolveDeferredLinks`).
`DatabaseManager.resolve_pending_dlc_links`, scraper.py:276-290. -/
def resolve_pending_dlc_links (s : Store) : Store :=
  { s with
      apps := (s.pendingDlc.filter (fun p => (s.apps.lookup p.2).isSome)).foldl
                (fun apps p => setParent apps p.1 p.2) s.apps
      pendingDlc := s.pendingDlc.filter (fun p => (s.apps.lookup p.2).isNone) }

/-- Modelled from the spec: the `apps` `insert_update` SQL (schema.yaml,
not in src) is an idempotent upsert by primary id (spec §4.3
`upsertItem`); the insert tuple does not include `base_game_id`, so the
parent column starts unset and is preserved on update. -/
def upsertApp : List (Int × AppRow) → Int → MainData → List (Int × AppRow)
  | [], id, m => [(id, { main := m, parent := none })]
  | (k, row) :: rest, id, m =>
    if k = id then (k, { row with main := m }) :: rest
    else (k, row) :: upsertApp rest id m

def addLinkIfAbsent (links : List (String × Int × String)) (e : String × Int × String) :
    List (String × Int × String) :=
  if e ∈ links then links else links ++ [e]

def upsertLang (links : List (Int × String × Bool)) (e : Int × String × Bool) :
    List (Int × String × Bool) :=
  if e ∈ links then links else links ++ [e]

def upsertTag : List (Int × String × Int) → Int × String × Int → List (Int × String × Int)
  | [], e => [e]
  | (a, n, v) :: rest, e =>
    if a = e.1 ∧ n = e.2.1 then (a, e.2.1, e.2.2) :: rest
    else (a, n, v) :: upsertTag rest e

/-- `DatabaseManager.add_app_and_relations` (scraper.py:293-317): the app
upsert, then idempotent link rows for developers, publishers,
categories, genres, languages (with the full-audio flag) and tags; a
`tags` value that is a list (SteamSpy placeholder) contributes no tag
rows. -/
def add_app_and_relations (s : Store) (p : ParsedData) : Store :=
  let app_id := p.main.id
  let s := { s with apps := upsertApp s.apps app_id p.main }
  let s := { s with entityLinks :=
    (p.developers.map (fun n => ("developers", app_id, n))
      ++ p.publishers.map (fun n => ("publishers", app_id, n))
      ++ p.categories.map (fun n => ("categories", app_id, n))
      ++ p.genres.map (fun n => ("genres", app_id, n))).foldl addLinkIfAbsent s.entityLinks }
  let s := { s with langLinks :=
    (p.supported_languages.map
      (fun n => (app_id, n, decide (n ∈ p.full_audio_languages)))).foldl upsertLang s.langLinks }
  let s := { s with tagLinks :=
    (if p.tags_is_list then []
     else p.tags.map (fun t => (app_id, t.1, t.2))).foldl upsertTag s.tagLinks }
  s

def upsertAch : List AchRecord → AchRecord → List AchRecord
  | [], a => [a]
  | b :: rest, a =>
    if b.app_id = a.app_id ∧ b.api_name = a.api_name then a :: rest
    else b :: upsertAch rest a

/-- `DatabaseManager.add_achievements` (scraper.py:320-326): no-op on an
empty batch, otherwise an upsert per (app id, api name). -/
def add_achievements (s : Store) (achievements : List AchRecord) : Store :=
  match achievements with
  | [] => s
  | _ => { s with achRows := achievements.foldl upsertAch s.achRows }

def upsertReview : List ReviewRow → ReviewRow → List ReviewRow
  | [], r => [r]
  | b :: rest, r =>
    if b.recommendationid = r.recommendationid then r :: rest
    else b :: upsertReview rest r

def addReviewLink (links : List (String × String)) (e : String × String) :
    List (String × String) :=
  if e ∈ links then links else links ++ [e]

/-- `DatabaseManager.add_reviews` (scraper.py:329-346): no-op on an empty
batch; each review body is sanitized, rows are upserted by
recommendation id and linked to the app. -/
def add_reviews (s : Store) (reviews : List ReviewIn) (app_id : String) : Store :=
  match reviews with
  | [] => s
  | _ =>
    let rows := reviews.map (fun r =>
      { recommendationid := r.recommendationid
        author := r.author_steamid
        language := r.language
        text := sanitize_text r.review
        voted_up := r.voted_up
        votes_up := r.votes_up
        votes_funny := r.votes_funny
        created := r.timestamp_created : ReviewRow })
    let links := reviews.map (fun r => (app_id, r.recommendationid))
    { s with reviewRows := rows.foldl upsertReview s.reviewRows
             reviewLinks := links.foldl addReviewLink s.reviewLinks }

/-- The connection state: `cur` is what the open transaction (and the
same-connection reads) see, `committed` is what survives a dropped
connection.  `DatabaseManager.commit`/`close`, scraper.py:349-358. -/
structure DbState where
  cur : Store
  committed : Store
  closed : Bool

def commitDb (db : DbState) : DbState := { db with committed := db.cur }

def closeDb (db : DbState) : DbState :=
  if db.closed then db else { db with committed := db.cur, closed := true }

def mkDb (s : Store) : DbState := { cur := s, committed := s, closed := false }

/-! ### Crawl orchestrator (`SteamScraperApplication.run`, scraper.py:390-472)

Nondeterminism is made explicit: `random.shuffle` becomes a function
parameter, network results come from an environment record, a
persistence failure inside `add_app_and_relations` (claim C2's
"persistence failure during a required write") is injected via
`dbFailOn`, and an interrupt signal is modelled as arriving at the top
of a loop iteration (`interruptBefore` on the iteration index; signals
between statements of one item are not distinguished by any claim). -/

inductive Event where
  | detailFetch (id : Int)
  | spyFetch (id : Int)
  | achFetch (id : Int)
  | reviewFetch (id : Int)
deriving DecidableEq

inductive RunExc where
  | interrupt
  | itemError
deriving DecidableEq

structure Config where
  use_steamspy : Bool
  pre_filter : Bool

structure Env where
  detail : Int → Option AppDetails
  spy : Int → Option SpyDetails
  achievements : Int → List AchRecord
  reviews : Int → List ReviewIn
  dbFailOn : Int → Bool
  interruptBefore : Nat → Bool

structure ItemResult where
  db : DbState
  events : List Event
  failed : Bool
  newlyProcessed : Bool

/-- One iteration body of the main loop (scraper.py:420-458): the
renewed `is_processed` check, the detail fetch, the unavailable and
unsupported-kind terminal marks, the SteamSpy gate
(`use_steamspy and app_type == 'game'`), parse, persist (where an
injected persistence failure raises before the commit), the deferred
DLC link, the achievements gate
(`app_type == "game" and achievements_count > 0`), reviews, and the
`success` mark.  `pyShow` renders the f-string interpolation of an
absent kind as Python does (`"None"`). -/
def pyShow (t : Option String) : String := t.getD "None"

def processItem (cfg : Config) (env : Env) (db : DbState) (appid : Int) : ItemResult :=
  if is_processed db.cur appid then
    { db := db, events := [], failed := false, newlyProcessed := false }
  else
    match env.detail appid with
    | none =>
      { db := commitDb { db with cur := mark_as_processed db.cur appid "unavailable" }
        events := [Event.detailFetch appid], failed := false, newlyProcessed := false }
    | some d =>
      if d.type ≠ some "game" ∧ d.type ≠ some "dlc" then
        { db := { db with cur := mark_as_processed db.cur appid ("skipped type: " ++ pyShow d.type) }
          events := [Event.detailFetch appid], failed := false, newlyProcessed := false }
      else
        let useSpy := cfg.use_steamspy && d.type == some "game"
        let spyEvents := if useSpy then [Event.spyFetch appid] else []
        let parsed := parse_app_data d (if useSpy then env.spy appid else none)
        if env.dbFailOn appid then
          { db := db, events := [Event.detailFetch appid] ++ spyEvents
            failed := true, newlyProcessed := false }
        else
          let db := commitDb { db with cur := add_app_and_relations db.cur parsed }
          let db :=
            if (parsed.base_game_id.getD 0) ≠ 0 then
              { db with cur := add_pending_dlc_link db.cur appid (parsed.base_game_id.getD 0) }
            else db
          let achGate := d.type == some "game" && parsed.main.achievements_count > 0
          let achEvents := if achGate then [Event.achFetch appid] else []
          let db :=
            if achGate then
              commitDb { db with cur := add_achievements db.cur (env.achievements appid) }
            else db
          let db := { db with cur := add_reviews db.cur (env.reviews appid) (toString appid) }
          let db := commitDb { db with cur := mark_as_processed db.cur appid "success" }
          { db := db
            events := [Event.detailFetch appid] ++ spyEvents ++ achEvents
                        ++ [Event.reviewFetch appid]
            failed := false, newlyProcessed := true }

structure LoopResult where
  db : DbState
  events : List Event
  exc : Option RunExc
  newly : Nat

/-- The `for` loop inside the `try` (scraper.py:413-459): a pending
interrupt raises `KeyboardInterrupt`, the `--pre-filter` shortcut skips
ids from the stale pre-computed set, and a raising item aborts the whole
loop (the `except` clauses sit outside the `for`). -/
def runLoop (cfg : Config) (env : Env) (preSet : List Int) :
    List Int → Nat → DbState → Nat → LoopResult
  | [], _, db, n => { db := db, events := [], exc := none, newly := n }
  | id :: rest, i, db, n =>
    if env.interruptBefore i then
      { db := db, events := [], exc := some RunExc.interrupt, newly := n }
    else if cfg.pre_filter ∧ id ∈ preSet then
      runLoop cfg env preSet rest (i + 1) db n
    else
      let r := processItem cfg env db id
      if r.failed then
        { db := r.db, events := r.events, exc := some RunExc.itemError, newly := n }
      else
        let k := runLoop cfg env preSet rest (i + 1) r.db
          (n + (if r.newlyProcessed then 1 else 0))
        { db := k.db, events := r.events ++ k.events, exc := k.exc, newly := k.newly }

/-- The universe-minus-processed computation (scraper.py:398-405): copy
the id list and remove one occurrence per sighting of an
already-processed id.  The source manipulates decimal strings and
compares `int(appid)`; ids are modelled as the integers directly, which
is faithful because the universe is built with `str(data['appid'])`
(canonical decimal rendering, a bijection onto the integers). -/
def computeRemaining (app_ids processed : List Int) : List Int :=
  app_ids.foldl (fun acc a => if a ∈ processed then acc.erase a else acc) app_ids

structure RunResult where
  db : DbState
  events : List Event
  exc : Option RunExc
  newly : Nat
  resolveCalls : Nat
  closed : Bool
  total : Nat
  exitedEarly : Bool

/-- `SteamScraperApplication.run` (scraper.py:390-472).  An empty
universe exits before the loop (`sys.exit(1)`).  Otherwise the remaining
work is computed, shuffled (the permutation is the `shuffleF`
parameter), and iterated; the `finally` block always resolves pending
DLC links exactly once (that call commits internally, scraper.py:288) and
then calls `show_progress_bar('Finished', total, total, _)` — which, when
`total = 0`, evaluates `count / float(total)` and raises
`ZeroDivisionError`, so `db.close()` on scraper.py:472 is never reached
in that case. -/
def run (cfg : Config) (env : Env) (app_ids : List Int)
    (shuffleF : List Int → List Int) (db0 : DbState) : RunResult :=
  if app_ids = [] then
    { db := db0, events := [], exc := none, newly := 0, resolveCalls := 0
      closed := false, total := 0, exitedEarly := true }
  else
    let processedSet := get_all_processed_app_ids db0.cur
    let remaining := computeRemaining app_ids processedSet
    let total := remaining.length
    let shuffled := shuffleF remaining
    let lr := runLoop cfg env processedSet shuffled 0 db0 0
    let dbR := commitDb { lr.db with cur := resolve_pending_dlc_links lr.db.cur }
    if total = 0 then
      { db := dbR, events := lr.events, exc := lr.exc, newly := lr.newly
        resolveCalls := 1, closed := false, total := total, exitedEarly := false }
    else
      { db := closeDb dbR, events := lr.events, exc := lr.exc, newly := lr.newly
        resolveCalls := 1, closed := true, total := total, exitedEarly := false }

/-! ### Concrete fixtures for witnesses and counterexamples -/

def cfgNoSpy : Config := { use_steamspy := false, pre_filter := false }

def cfgSpy : Config := { use_steamspy := true, pre_filter := false }

/-- A minimal detail payload of the given kind. -/
def mkDetails (id : Int) (t : Option String) : AppDetails :=
  { steam_appid := id, type := t, name := some "X", fullgame := none
    release_date := none, price_overview := none, recommendations := none
    metacritic := none, platforms := none, required_age := none
    achievements := none, header_image := none, about_the_game := none
    detailed_description := none, short_description := none, reviews := none
    supported_languages := none, developers := [], publishers := []
    categories := [], genres := [] }

def envNone : Env :=
  { detail := fun _ => none, spy := fun _ => none, achievements := fun _ => []
    reviews := fun _ => [], dbFailOn := fun _ => false, interruptBefore := fun _ => false }

/-- Every id is a game; persisting id 1 fails. -/
def envFail1 : Env :=
  { envNone with detail := fun i => some (mkDetails i (some "game"))
                 dbFailOn := fun i => i == 1 }

/-- Every id reports the unsupported kind `video`. -/
def envVideo : Env :=
  { envNone with detail := fun i => some (mkDetails i (some "video")) }

/-- Every id is an addon (`dlc`). -/
def envDlc : Env :=
  { envNone with detail := fun i => some (mkDetails i (some "dlc")) }

def dbEmpty : DbState := mkDb emptyStore

def dbSuccess5 : DbState := mkDb { emptyStore with ledger := [(5, "success")] }

def dbSuccess7 : DbState := mkDb { emptyStore with ledger := [(7, "success")] }

def mainA : MainData := (parse_app_data (mkDetails 1 (some "dlc")) none).main

def mainP : MainData := (parse_app_data (mkDetails 2 (some "game")) none).main

def storeA : Store := { emptyStore with apps := [(1, { main := mainA, parent := none })] }

/-- The app id every event of `processItem` refers to. -/
def eventAppId : Event → Int
  | .detailFetch i => i
  | .spyFetch i => i
  | .achFetch i => i
  | .reviewFetch i => i

/-- The enrichment-derived fields of a record (spec §4.2 enrichment
merge), bundled for preservation lemmas. -/
def enrichFields (m : MainData) :
    Int × Int × Int × Option String × Int × Option String :=
  (m.positive_reviews, m.negative_reviews, m.peak_ccu,
   m.estimated_owners, m.user_score, m.score_rank)

/-- A well-formed 2xx JSON body that does not contain the requested
appid key (`"123"`). -/
def strayDetailBody : Json :=
  Json.obj [("999", Json.obj [("success", Json.boolean true)])]

/-! ## Theorems -/

/-- C7 counterexample: the sanitizer replaces the `</b>` tag with a
space that lands next to the space produced from `\n`, and runs of
spaces are not collapsed, so the spec's expected output (with a single
space between the words) is not produced. -/
theorem c7_sanitize_counterexample :
    sanitize_text (some "<b>Hello</b>\nWorld &amp; Co") ≠ "Hello World & Co" := by
  decide

/-- C7 (amended): `sanitize_text` maps
`"<b>Hello</b>\nWorld &amp; Co"` to `"Hello  World & Co"` — each HTML
tag and each newline/tab/carriage-return becomes a single space (runs
are not collapsed), `&quot;`/`&amp;` are unescaped, and the ends are
trimmed. -/
theorem c7_sanitize_example :
    sanitize_text (some "<b>Hello</b>\nWorld &amp; Co") = "Hello  World & Co" := by
  decide

/-- C8: date parsing accepts both layouts (with ordinal suffixes
stripped), yields `"2024-01-07"` for `"7 Jan 2024"` and `"Jan 7, 2024"`,
yields `none` for `"Coming soon"` and `"garbage"`, and yields `none` for
every string containing the code's coming-soon marker — all without any
error (the function is total into `Option`). -/
theorem c8_parse_steam_date :
    parse_steam_date "7 Jan 2024" = some "2024-01-07" ∧
    parse_steam_date "Jan 7, 2024" = some "2024-01-07" ∧
    parse_steam_date "1st Jan 2024" = some "2024-01-01" ∧
    parse_steam_date "Coming soon" = none ∧
    parse_steam_date "garbage" = none ∧
    (∀ s : String, containsSub "coming_soon".data s.data = true → parse_steam_date s = none) := by
  refine ⟨by decide, by decide, by decide, by decide, by decide, ?_⟩
  intro s h
  simp [parse_steam_date, h]

/-- C8 witness: the universally quantified conjunct of
`c8_parse_steam_date` applied at a concrete marker-containing string. -/
theorem c8_parse_steam_date_witness :
    parse_steam_date "coming_soon tba" = none :=
  c8_parse_steam_date.2.2.2.2.2 "coming_soon tba" (by decide)

theorem findNum_eq_none (l : List Char) (h : ∀ c ∈ l, c.isDigit = false) :
    findNum l = none := by
  induction l with
  | nil => rfl
  | cons c rest ih =>
    have hc := h c (List.mem_cons_self c rest)
    simp only [findNum, hc, Bool.false_eq_true, if_false]
    exact ih (fun x hx => h x (List.mem_cons_of_mem c hx))

/-- C9: price parsing normalises the comma separator and extracts the
first decimal number exactly: `19.99` for `"$19.99"` and `"19,99€"`,
`0` for the empty string and for every digit-free string — all without
any error (the function is total). -/
theorem c9_price_to_float :
    price_to_float "$19.99" = 19.99 ∧
    price_to_float "19,99€" = 19.99 ∧
    price_to_float "" = 0 ∧
    (∀ s : String, (∀ c ∈ s.data, c.isDigit = false) → price_to_float s = 0) := by
  have h19 : digitsToNat ['1', '9'] = 19 := by decide
  have h99 : digitsToNat ['9', '9'] = 99 := by decide
  refine ⟨?_, ?_, rfl, ?_⟩
  · have h1 : findNum ("$19.99".data.map (fun c => if c = ',' then '.' else c))
        = some (['1', '9'], ['9', '9']) := by decide
    simp only [price_to_float, h1]
    simp only [ratOfDigits, h19, h99, List.length_cons, List.length_nil]
    norm_num
  · have h1 : findNum ("19,99€".data.map (fun c => if c = ',' then '.' else c))
        = some (['1', '9'], ['9', '9']) := by decide
    simp only [price_to_float, h1]
    simp only [ratOfDigits, h19, h99, List.length_cons, List.length_nil]
    norm_num
  intro s h
  have hall : ∀ c ∈ s.data.map (fun c => if c = ',' then '.' else c), c.isDigit = false := by
    intro c hc
    rcases List.mem_map.mp hc with ⟨a, ha, rfl⟩
    by_cases h' : a = ','
    · simp [h']
    · simp only [h', if_false]
      exact h a ha
  simp only [price_to_float, findNum_eq_none _ hall]

/-- C9 witness: the universally quantified conjunct of
`c9_price_to_float` applied at a concrete digit-free string. -/
theorem c9_price_to_float_witness :
    price_to_float "Free" = 0 :=
  c9_price_to_float.2.2.2 "Free" (by decide)

/-- C4 counterexample: the identifier-universe fetch, with no cache and
a transport-level failure, raises `KeyError` (it indexes the `{}` that
`_do_requests` degraded the failure to), contradicting "returns an empty
or absent result to its caller and never raises an exception". -/
theorem c4_universe_fetch_raises :
    get_all_app_ids none HttpOutcome.transportFail = Except.error PyExc.keyError := rfl

/-- C4 (amended): `_do_requests` degrades timeouts, transport failures,
HTTP status errors, empty bodies and JSON-decode failures to `{}`, and
the detail, enrichment, achievement and review fetchers then return an
absent or empty result without raising; but the identifier-universe
fetch raises `KeyError` on exactly those failures, and a well-formed
2xx body lacking the requested appid key makes the detail fetch raise
`KeyError` as well. -/
theorem c4_soft_failure (o : HttpOutcome)
    (h : o = HttpOutcome.transportFail ∨ o = HttpOutcome.badStatus ∨
         o = HttpOutcome.okEmpty ∨ o = HttpOutcome.okMalformed) :
    do_requests o = emptyDict ∧
    (∀ a : String, get_app_details a o = Except.ok none) ∧
    get_steamspy_details o = Except.ok none ∧
    (∀ a : String, ∀ p : HttpOutcome, get_achievements a o p = Except.ok []) ∧
    (∀ a : String, get_reviews a o = Except.ok []) ∧
    get_all_app_ids none o = Except.error PyExc.keyError ∧
    get_app_details "123" (HttpOutcome.okBody strayDetailBody) = Except.error PyExc.keyError := by
  rcases h with rfl | rfl | rfl | rfl <;>
    exact ⟨rfl, fun _ => rfl, rfl, fun _ _ => rfl, fun _ => rfl, rfl, rfl⟩

/-- C4 witness: `c4_soft_failure` applied at the HTTP-status-error
outcome. -/
theorem c4_soft_failure_witness :
    get_steamspy_details HttpOutcome.badStatus = Except.ok none :=
  (c4_soft_failure HttpOutcome.badStatus (Or.inr (Or.inl rfl))).2.2.1

theorem lookup_setParent_isSome (a p k : Int) (apps : List (Int × AppRow)) :
    ((setParent apps a p).lookup k).isSome = (apps.lookup k).isSome := by
  induction apps with
  | nil => rfl
  | cons kv rest ih =>
    rcases kv with ⟨j, row⟩
    simp only [setParent]
    by_cases hj : j = a
    · simp only [if_pos hj, List.lookup]
      cases hjk : (k == j) <;> simp [hjk]
    · simp only [if_neg hj, List.lookup]
      cases hjk : (k == j) <;> simp [hjk, ih]

theorem lookup_foldl_setParent_isSome (k : Int) (ps : List (Int × Int)) :
    ∀ apps : List (Int × AppRow),
      ((ps.foldl (fun apps p => setParent apps p.1 p.2) apps).lookup k).isSome
        = (apps.lookup k).isSome := by
  induction ps with
  | nil => intro apps; rfl
  | cons p rest ih =>
    intro apps
    rw [List.foldl_cons, ih, lookup_setParent_isSome]

theorem resolve_apps_lookup_isSome (s : Store) (k : Int) :
    ((resolve_pending_dlc_links s).apps.lookup k).isSome = (s.apps.lookup k).isSome := by
  simp only [resolve_pending_dlc_links]
  exact lookup_foldl_setParent_isSome k _ s.apps

theorem resolve_noop_of_unresolvable (t : Store)
    (h : ∀ p ∈ t.pendingDlc, (t.apps.lookup p.2).isSome = false) :
    resolve_pending_dlc_links t = t := by
  have hfil1 : t.pendingDlc.filter (fun p => (t.apps.lookup p.2).isSome) = [] := by
    apply List.filter_eq_nil_iff.mpr
    intro p hp
    rw [h p hp]
    simp
  have hfil2 : t.pendingDlc.filter (fun p => (t.apps.lookup p.2).isNone) = t.pendingDlc := by
    apply List.filter_eq_self.mpr
    intro p hp
    have hs := h p hp
    cases hx : t.apps.lookup p.2 with
    | none => rfl
    | some r => rw [hx] at hs; simp at hs
  unfold resolve_pending_dlc_links
  rw [hfil1, hfil2, List.foldl_nil]

theorem resolve_pending_idem (s : Store) :
    resolve_pending_dlc_links (resolve_pending_dlc_links s) = resolve_pending_dlc_links s := by
  apply resolve_noop_of_unresolvable
  intro p hp
  have h2 : (s.apps.lookup p.2).isNone = true := by
    simp only [resolve_pending_dlc_links] at hp
    exact (List.mem_filter.mp hp).2
  rw [resolve_apps_lookup_isSome]
  cases hx : s.apps.lookup p.2 with
  | none => rfl
  | some r => rw [hx] at h2; simp at h2

theorem upsertApp_lookup_of_none (m : MainData) (idp : Int) :
    ∀ apps : List (Int × AppRow), apps.lookup idp = none →
      (upsertApp apps idp m).lookup idp = some { main := m, parent := none } := by
  intro apps
  induction apps with
  | nil => intro _; simp [upsertApp, List.lookup]
  | cons kv rest ih =>
    intro h
    rcases kv with ⟨j, row⟩
    by_cases hj : j = idp
    · rw [hj] at h
      simp [List.lookup] at h
    · have hj' : (idp == j) = false := beq_eq_false_iff_ne.mpr (fun hh => hj hh.symm)
      simp only [List.lookup, hj'] at h
      simp [upsertApp, hj, List.lookup, hj', ih h]

theorem upsertApp_lookup_ne (m : MainData) (idp k : Int) (hk : k ≠ idp) :
    ∀ apps : List (Int × AppRow), (upsertApp apps idp m).lookup k = apps.lookup k := by
  intro apps
  induction apps with
  | nil => simp [upsertApp, List.lookup, beq_eq_false_iff_ne.mpr hk]
  | cons kv rest ih =>
    rcases kv with ⟨j, row⟩
    by_cases hj : j = idp
    · subst hj
      have hkj : (k == j) = false := beq_eq_false_iff_ne.mpr hk
      simp [upsertApp, List.lookup, hkj]
    · cases hkj : (k == j) <;> simp [upsertApp, hj, List.lookup, hkj, ih]

theorem setParent_lookup_some (p : Int) (rowA : AppRow) (a : Int) :
    ∀ apps : List (Int × AppRow), apps.lookup a = some rowA →
      (setParent apps a p).lookup a = some { rowA with parent := some p } := by
  intro apps
  induction apps with
  | nil => intro h; simp [List.lookup] at h
  | cons kv rest ih =>
    intro h
    rcases kv with ⟨j, row⟩
    by_cases hj : j = a
    · simp only [List.lookup, hj, beq_self_eq_true] at h
      rw [Option.some_inj] at h
      simp [setParent, hj, List.lookup, h]
    · have hj' : (a == j) = false := beq_eq_false_iff_ne.mpr (fun hh => hj hh.symm)
      simp only [List.lookup, hj'] at h
      simp [setParent, hj, List.lookup, hj', ih h]

/-- C3: the deferred-link round trip — recording a link for addon `A`
with parent `P` while `P` is absent makes resolution a strict no-op
(the deferred row stays, `A`'s parent stays unset); once `P` is
upserted, one resolution sets `A`'s parent to `P` and removes the row;
and resolving again (in general: resolving twice) has no effect. -/
theorem c3_deferred_link_round_trip (s : Store) (A P : Int) (rowA : AppRow) (mP : MainData)
    (hpend : s.pendingDlc = [])
    (hA : s.apps.lookup A = some rowA)
    (hApar : rowA.parent = none)
    (hP : s.apps.lookup P = none) :
    (A, P) ∈ (add_pending_dlc_link s A P).pendingDlc ∧
    resolve_pending_dlc_links (add_pending_dlc_link s A P) = add_pending_dlc_link s A P ∧
    ((add_pending_dlc_link s A P).apps.lookup A).map (fun r => r.parent) = some none ∧
    (((resolve_pending_dlc_links
        { add_pending_dlc_link s A P with apps := upsertApp s.apps P mP }).apps.lookup A).map
      (fun r => r.parent) = some (some P)) ∧
    ((A, P) ∉ (resolve_pending_dlc_links
        { add_pending_dlc_link s A P with apps := upsertApp s.apps P mP }).pendingDlc) ∧
    (∀ t : Store,
      resolve_pending_dlc_links (resolve_pending_dlc_links t) = resolve_pending_dlc_links t) := by
  have hAP : A ≠ P := by
    intro h
    rw [h, hP] at hA
    exact Option.noConfusion hA
  have hs1pend : (add_pending_dlc_link s A P).pendingDlc = [(A, P)] := by
    simp [add_pending_dlc_link, hpend]
  have hs1apps : (add_pending_dlc_link s A P).apps = s.apps := by
    simp only [add_pending_dlc_link, hpend]
    split <;> rfl
  have hupP : (upsertApp s.apps P mP).lookup P = some { main := mP, parent := none } :=
    upsertApp_lookup_of_none mP P s.apps hP
  have hupA : (upsertApp s.apps P mP).lookup A = some rowA := by
    rw [upsertApp_lookup_ne mP P A hAP s.apps]
    exact hA
  have hs3pend :
      ({ add_pending_dlc_link s A P with apps := upsertApp s.apps P mP } : Store).pendingDlc
        = [(A, P)] := hs1pend
  refine ⟨?_, ?_, ?_, ?_, ?_, resolve_pending_idem⟩
  · rw [hs1pend]
    exact List.mem_singleton.mpr rfl
  · apply resolve_noop_of_unresolvable
    intro p hp
    rw [hs1pend] at hp
    rw [List.mem_singleton.mp hp, hs1apps]
    rw [hP]
    rfl
  · rw [hs1apps, hA]
    simp [hApar]
  · unfold resolve_pending_dlc_links
    rw [hs3pend]
    simp only [List.filter, hupP, Option.isSome_some, List.foldl_cons, List.foldl_nil]
    rw [setParent_lookup_some P rowA A _ hupA]
    rfl
  · unfold resolve_pending_dlc_links
    rw [hs3pend]
    simp only [List.filter, hupP, Option.isNone_some]
    simp

/-- C3 witness: `c3_deferred_link_round_trip` applied at the concrete
one-app store `storeA` (addon 1 present, parent 2 absent). -/
theorem c3_deferred_link_round_trip_witness :
    (1, 2) ∈ (add_pending_dlc_link storeA 1 2).pendingDlc :=
  (c3_deferred_link_round_trip storeA 1 2 { main := mainA, parent := none } mainP
    rfl rfl rfl rfl).1

theorem count_foldl_erase (processed : List Int) (a : Int) (ha : a ∈ processed) :
    ∀ (l₂ acc : List Int),
      (l₂.foldl (fun acc x => if x ∈ processed then acc.erase x else acc) acc).count a
        = acc.count a - l₂.count a := by
  intro l₂
  induction l₂ with
  | nil => intro acc; simp
  | cons x l ih =>
    intro acc
    rw [List.foldl_cons]
    by_cases hx : x = a
    · subst hx
      rw [if_pos ha, ih, List.count_erase_self, List.count_cons_self]
      omega
    · rw [List.count_cons_of_ne (fun h => hx h.symm)]
      by_cases hmem : x ∈ processed
      · rw [if_pos hmem, ih, List.count_erase_of_ne (fun h => hx h.symm)]
      · rw [if_neg hmem, ih]

theorem computeRemaining_not_mem (app_ids processed : List Int) (a : Int)
    (ha : a ∈ processed) : a ∉ computeRemaining app_ids processed := by
  have h := count_foldl_erase processed a ha app_ids app_ids
  rw [Nat.sub_self] at h
  exact List.count_eq_zero.mp h

theorem mem_of_if_singleton {e x : Event} {b : Bool} :
    e ∈ (if b then [x] else []) → e = x := by
  intro h
  cases b
  · simp at h
  · simpa using h

theorem processItem_events_id (cfg : Config) (env : Env) (db : DbState) (appid : Int) :
    ∀ e ∈ (processItem cfg env db appid).events, eventAppId e = appid := by
  intro e he
  unfold processItem at he
  split at he
  · simp at he
  · split at he
    · simp only [List.mem_singleton] at he
      rw [he]
      rfl
    · split at he
      · simp only [List.mem_singleton] at he
        rw [he]
        rfl
      · split at he
        · rcases List.mem_append.mp he with he | he
          · rw [List.mem_singleton.mp he]; rfl
          · rw [mem_of_if_singleton he]; rfl
        · rcases List.mem_append.mp he with he | he
          · rcases List.mem_append.mp he with he | he
            · rcases List.mem_append.mp he with he | he
              · rw [List.mem_singleton.mp he]; rfl
              · rw [mem_of_if_singleton he]; rfl
            · rw [mem_of_if_singleton he]; rfl
          · rw [List.mem_singleton.mp he]; rfl

theorem runLoop_event_mem (cfg : Config) (env : Env) (preSet : List Int) :
    ∀ (ids : List Int) (i : Nat) (db : DbState) (n : Nat) (e : Event),
      e ∈ (runLoop cfg env preSet ids i db n).events → eventAppId e ∈ ids := by
  intro ids
  induction ids with
  | nil =>
    intro i db n e he
    simp [runLoop] at he
  | cons idh rest ih =>
    intro i db n e he
    simp only [runLoop] at he
    by_cases hint : env.interruptBefore i = true
    · rw [if_pos hint] at he
      simp at he
    · rw [if_neg hint] at he
      by_cases hpre : cfg.pre_filter ∧ idh ∈ preSet
      · rw [if_pos hpre] at he
        exact List.mem_cons_of_mem _ (ih _ _ _ _ he)
      · rw [if_neg hpre] at he
        by_cases hf : (processItem cfg env db idh).failed = true
        · rw [if_pos hf] at he
          rw [processItem_events_id cfg env db idh e he]
          exact List.mem_cons_self _ _
        · rw [if_neg hf] at he
          rcases List.mem_append.mp he with he | he
          · rw [processItem_events_id cfg env db idh e he]
            exact List.mem_cons_self _ _
          · exact List.mem_cons_of_mem _ (ih _ _ _ _ he)

/-- C1: resumability — an identifier already marked `success` in the
status ledger is excluded by the universe-minus-processed computation,
so the run never fetches its detail payload again; and independently,
`is_processed` is re-checked first in every iteration, so an
already-processed identifier produces no event (in particular no
network fetch) and leaves the store untouched. -/
theorem c1_resumability (cfg : Config) (env : Env) (app_ids : List Int)
    (shuffleF : List Int → List Int) (db0 : DbState) (appid : Int)
    (hshuf : ∀ l, (shuffleF l).Perm l)
    (hsucc : (appid, "success") ∈ db0.cur.ledger) :
    Event.detailFetch appid ∉ (run cfg env app_ids shuffleF db0).events ∧
    (∀ db : DbState, is_processed db.cur appid = true →
      processItem cfg env db appid =
        { db := db, events := [], failed := false, newlyProcessed := false }) := by
  constructor
  · intro hmem
    unfold run at hmem
    split at hmem
    · simp at hmem
    · have hproc : appid ∈ get_all_processed_app_ids db0.cur :=
        List.mem_map_of_mem (fun kv => kv.1) hsucc
      have hnot := computeRemaining_not_mem app_ids (get_all_processed_app_ids db0.cur)
        appid hproc
      simp only [apply_ite (fun r : RunResult => r.events), ite_self] at hmem
      have hin := runLoop_event_mem cfg env _ _ _ _ _ _ hmem
      exact hnot (((hshuf _).mem_iff).mp hin)
  · intro db h
    simp [processItem, h]

/-- C1 witness: `c1_resumability` applied at a concrete run whose single
universe id 5 is already marked `success`. -/
theorem c1_resumability_witness :
    Event.detailFetch 5 ∉ (run cfgNoSpy envFail1 [5] id dbSuccess5).events :=
  (c1_resumability cfgNoSpy envFail1 [5] id dbSuccess5 5
    (fun l => List.Perm.refl l) (by decide)).1

theorem lookup_isSome_of_mem {k : Int} {v : String} :
    ∀ l : List (Int × String), (k, v) ∈ l → (l.lookup k).isSome = true := by
  intro l
  induction l with
  | nil => intro h; simp at h
  | cons kv rest ih =>
    intro h
    rcases kv with ⟨a, b⟩
    rcases List.mem_cons.mp h with h | h
    · cases h
      simp [List.lookup]
    · cases hk : (k == a) <;> simp [List.lookup, hk, ih h]

theorem commitDb_cur (db : DbState) : (commitDb db).cur = db.cur := rfl

theorem closeDb_cur (db : DbState) : (closeDb db).cur = db.cur := by
  unfold closeDb
  split <;> rfl

theorem resolve_ledger (s : Store) :
    (resolve_pending_dlc_links s).ledger = s.ledger := rfl

theorem processItem_dbfail (cfg : Config) (env : Env) (db : DbState) (k : Int)
    (d : AppDetails)
    (hproc : is_processed db.cur k = false)
    (hdet : env.detail k = some d)
    (hkind : d.type = some "game" ∨ d.type = some "dlc")
    (hfail : env.dbFailOn k = true) :
    processItem cfg env db k =
      { db := db
        events := [Event.detailFetch k]
          ++ (if (cfg.use_steamspy && d.type == some "game") = true
              then [Event.spyFetch k] else [])
        failed := true, newlyProcessed := false } := by
  rcases hkind with hk | hk <;> simp [processItem, hproc, hdet, hk, hfail]

/-- C2 (amended): a persistence failure while processing the first
remaining item is caught by the run (the exception classes sit outside
the loop): the item is not marked `success` and nothing at all is
recorded for it, the error surfaces as the run's terminating condition,
deferred-link resolution and the store close still happen — but the
loop terminates: no later item is fetched in this run. -/
theorem c2_item_error_stops_loop (cfg : Config) (env : Env) (app_ids : List Int)
    (shuffleF : List Int → List Int) (db0 : DbState) (k : Int) (rest : List Int)
    (d : AppDetails)
    (hshuf : ∀ l, (shuffleF l).Perm l)
    (hne : app_ids ≠ [])
    (hpre : cfg.pre_filter = false)
    (hint : env.interruptBefore 0 = false)
    (hsh : shuffleF (computeRemaining app_ids (get_all_processed_app_ids db0.cur)) = k :: rest)
    (hproc : is_processed db0.cur k = false)
    (hdet : env.detail k = some d)
    (hkind : d.type = some "game" ∨ d.type = some "dlc")
    (hfail : env.dbFailOn k = true) :
    (run cfg env app_ids shuffleF db0).exc = some RunExc.itemError ∧
    (∀ st : String, (k, st) ∉ (run cfg env app_ids shuffleF db0).db.cur.ledger) ∧
    (∀ j : Int, Event.detailFetch j ∈ (run cfg env app_ids shuffleF db0).events → j = k) ∧
    (run cfg env app_ids shuffleF db0).resolveCalls = 1 ∧
    (run cfg env app_ids shuffleF db0).closed = true := by
  have htot : ¬(computeRemaining app_ids (get_all_processed_app_ids db0.cur)).length = 0 := by
    have hlen := (hshuf (computeRemaining app_ids (get_all_processed_app_ids db0.cur))).length_eq
    rw [hsh] at hlen
    simp at hlen
    omega
  have hpi := processItem_dbfail cfg env db0 k d hproc hdet hkind hfail
  have hloop : runLoop cfg env (get_all_processed_app_ids db0.cur) (k :: rest) 0 db0 0 =
      { db := db0
        events := [Event.detailFetch k]
          ++ (if (cfg.use_steamspy && d.type == some "game") = true
              then [Event.spyFetch k] else [])
        exc := some RunExc.itemError, newly := 0 } := by
    simp [runLoop, hint, hpre, hpi]
  have hledger : (run cfg env app_ids shuffleF db0).db.cur.ledger = db0.cur.ledger := by
    simp only [run, if_neg hne, hsh, hloop, if_neg htot, closeDb_cur, commitDb_cur,
      resolve_ledger]
  refine ⟨?_, ?_, ?_, ?_, ?_⟩
  · simp only [run, if_neg hne, hsh, hloop, if_neg htot]
  · intro st hmem
    rw [hledger] at hmem
    have := lookup_isSome_of_mem _ hmem
    rw [is_processed] at hproc
    rw [this] at hproc
    exact Bool.noConfusion hproc
  · intro j hj
    simp only [run, if_neg hne, hsh, hloop, if_neg htot] at hj
    rcases List.mem_append.mp hj with hj | hj
    · exact (Event.detailFetch.injEq j k).mp (List.mem_singleton.mp hj)
    · exact absurd (mem_of_if_singleton hj) (fun h => Event.noConfusion h)
  · simp only [run, if_neg hne, hsh, hloop, if_neg htot]
  · simp only [run, if_neg hne, hsh, hloop, if_neg htot]

/-- C2 counterexample: with remaining items 1 and 2 and a persistence
failure while writing item 1, the only fetch of the whole run is item
1's detail fetch and the loop ends with the item error — the
orchestrator does not continue to item 2, contradicting the claim. -/
theorem c2_counterexample :
    (run cfgNoSpy envFail1 [1, 2] id dbEmpty).events = [Event.detailFetch 1] ∧
    (run cfgNoSpy envFail1 [1, 2] id dbEmpty).exc = some RunExc.itemError := by
  constructor <;> rfl

/-- C2 witness: `c2_item_error_stops_loop` applied at the concrete
two-item run. -/
theorem c2_item_error_stops_loop_witness :
    (run cfgNoSpy envFail1 [1, 2] id dbEmpty).closed = true :=
  (c2_item_error_stops_loop cfgNoSpy envFail1 [1, 2] id dbEmpty 1 [2]
    (mkDetails 1 (some "game")) (fun l => List.Perm.refl l) (by decide) rfl rfl rfl rfl
    rfl (Or.inl rfl) rfl).2.2.2.2

/-- C5 (code bug): at the failing input — a resumed run whose single
universe id is already processed, so the remaining list is empty — the
deferred-link resolution still runs exactly once after the (empty) loop,
but the final `show_progress_bar('Finished', 0, 0, 0)` divides by zero
(`count / float(total)` with `total = 0`), so `db.close()` is never
executed and the store is not closed, contrary to the claim's shutdown
guarantee. -/
theorem c5_empty_remaining_skips_close :
    (run cfgNoSpy envNone [7] id dbSuccess7).resolveCalls = 1 ∧
    (run cfgNoSpy envNone [7] id dbSuccess7).closed = false ∧
    (run cfgNoSpy envNone [7] id dbSuccess7).exc = none := by
  refine ⟨rfl, rfl, rfl⟩

theorem upsertAssoc_lookup_self (k : Int) (v : String) :
    ∀ l : List (Int × String), (upsertAssoc l k v).lookup k = some v := by
  intro l
  induction l with
  | nil => simp [upsertAssoc, List.lookup]
  | cons kv rest ih =>
    rcases kv with ⟨a, b⟩
    by_cases h : a = k
    · subst h
      simp [upsertAssoc, List.lookup]
    · have h' : (k == a) = false := beq_eq_false_iff_ne.mpr (fun hh => h hh.symm)
      simp [upsertAssoc, h, List.lookup, h', ih]

/-- C6 (amended): an item of any unsupported kind `t` is recorded with
the exact label `"skipped type: " ++ t` — not `"skipped: " ++ t` — and
triggers no further fetch: its only event is the detail fetch, and the
iteration ends without error. -/
theorem c6_skip_label (cfg : Config) (env : Env) (db : DbState) (appid : Int)
    (d : AppDetails) (t : String)
    (hproc : is_processed db.cur appid = false)
    (hdet : env.detail appid = some d)
    (ht : d.type = some t)
    (hg : t ≠ "game") (hd : t ≠ "dlc") :
    (processItem cfg env db appid).db.cur.ledger.lookup appid
      = some ("skipped type: " ++ t) ∧
    (processItem cfg env db appid).events = [Event.detailFetch appid] ∧
    (processItem cfg env db appid).failed = false := by
  refine ⟨?_, ?_, ?_⟩ <;>
    simp [processItem, hproc, hdet, ht, hg, hd, pyShow, mark_as_processed,
      upsertAssoc_lookup_self]

/-- C6 counterexample: for the concrete kind `"video"` the recorded
label is `"skipped type: video"`, not the claim's `"skipped: video"`. -/
theorem c6_counterexample :
    (processItem cfgNoSpy envVideo dbEmpty 3).db.cur.ledger.lookup 3
        ≠ some "skipped: video" ∧
    (processItem cfgNoSpy envVideo dbEmpty 3).db.cur.ledger.lookup 3
        = some "skipped type: video" := by
  constructor
  · decide
  · rfl

/-- C6 witness: `c6_skip_label` applied at a concrete `video` item. -/
theorem c6_skip_label_witness :
    (processItem cfgNoSpy envVideo dbEmpty 8).db.cur.ledger.lookup 8
      = some "skipped type: video" :=
  (c6_skip_label cfgNoSpy envVideo dbEmpty 8 (mkDetails 8 (some "video")) "video"
    rfl rfl rfl (by decide) (by decide)).1

theorem enrich_applyPrice (d : AppDetails) (m : MainData) :
    enrichFields (applyPrice d m) = enrichFields m := by
  unfold applyPrice
  cases d.price_overview <;> rfl

theorem enrich_applyRecommendations (d : AppDetails) (m : MainData) :
    enrichFields (applyRecommendations d m) = enrichFields m := by
  unfold applyRecommendations
  cases d.recommendations <;> rfl

theorem enrich_applyMetacritic (d : AppDetails) (m : MainData) :
    enrichFields (applyMetacritic d m) = enrichFields m := by
  unfold applyMetacritic
  cases d.metacritic <;> rfl

theorem enrich_applyPlatforms (d : AppDetails) (m : MainData) :
    enrichFields (applyPlatforms d m) = enrichFields m := by
  unfold applyPlatforms
  cases d.platforms <;> rfl

theorem enrich_applyGameFields_none (d : AppDetails) (m : MainData) :
    enrichFields (applyGameFields d none m) = enrichFields m := by
  unfold applyGameFields
  split
  · cases d.achievements <;> rfl
  · rfl

theorem parse_none_enrich (d : AppDetails) :
    enrichFields (parse_app_data d none).main = (0, 0, 0, none, 0, none) := by
  show enrichFields (applyGameFields d none (applyPlatforms d (applyMetacritic d
    (applyRecommendations d (applyPrice d (baseMain d)))))) = _
  rw [enrich_applyGameFields_none, enrich_applyPlatforms, enrich_applyMetacritic,
    enrich_applyRecommendations, enrich_applyPrice]
  rfl

theorem applyPrice_id (d : AppDetails) (m : MainData) : (applyPrice d m).id = m.id := by
  unfold applyPrice
  cases d.price_overview <;> rfl

theorem applyRecommendations_id (d : AppDetails) (m : MainData) :
    (applyRecommendations d m).id = m.id := by
  unfold applyRecommendations
  cases d.recommendations <;> rfl

theorem applyMetacritic_id (d : AppDetails) (m : MainData) :
    (applyMetacritic d m).id = m.id := by
  unfold applyMetacritic
  cases d.metacritic <;> rfl

theorem applyPlatforms_id (d : AppDetails) (m : MainData) :
    (applyPlatforms d m).id = m.id := by
  unfold applyPlatforms
  cases d.platforms <;> rfl

theorem applyGameFields_id (d : AppDetails) (spy : Option SpyDetails) (m : MainData) :
    (applyGameFields d spy m).id = m.id := by
  unfold applyGameFields
  split
  · cases d.achievements <;> cases spy <;> rfl
  · rfl

theorem parse_main_id (d : AppDetails) (spy : Option SpyDetails) :
    (parse_app_data d spy).main.id = d.steam_appid := by
  show (applyGameFields d spy (applyPlatforms d (applyMetacritic d
    (applyRecommendations d (applyPrice d (baseMain d)))))).id = d.steam_appid
  rw [applyGameFields_id, applyPlatforms_id, applyMetacritic_id,
    applyRecommendations_id, applyPrice_id]
  rfl

theorem add_pending_apps (s : Store) (a b : Int) :
    (add_pending_dlc_link s a b).apps = s.apps := by
  unfold add_pending_dlc_link
  split <;> rfl

theorem add_pending_tagLinks (s : Store) (a b : Int) :
    (add_pending_dlc_link s a b).tagLinks = s.tagLinks := by
  unfold add_pending_dlc_link
  split <;> rfl

theorem add_achievements_apps (s : Store) (l : List AchRecord) :
    (add_achievements s l).apps = s.apps := by
  unfold add_achievements
  cases l <;> rfl

theorem add_achievements_tagLinks (s : Store) (l : List AchRecord) :
    (add_achievements s l).tagLinks = s.tagLinks := by
  unfold add_achievements
  cases l <;> rfl

theorem add_reviews_apps (s : Store) (l : List ReviewIn) (a : String) :
    (add_reviews s l a).apps = s.apps := by
  unfold add_reviews
  cases l <;> rfl

theorem add_reviews_tagLinks (s : Store) (l : List ReviewIn) (a : String) :
    (add_reviews s l a).tagLinks = s.tagLinks := by
  unfold add_reviews
  cases l <;> rfl

theorem mark_as_processed_apps (s : Store) (k : Int) (v : String) :
    (mark_as_processed s k v).apps = s.apps := rfl

theorem mark_as_processed_tagLinks (s : Store) (k : Int) (v : String) :
    (mark_as_processed s k v).tagLinks = s.tagLinks := rfl

theorem add_app_and_relations_apps (s : Store) (p : ParsedData) :
    (add_app_and_relations s p).apps = upsertApp s.apps p.main.id p.main := rfl

theorem add_app_and_relations_tagLinks_of_empty (s : Store) (p : ParsedData)
    (h1 : p.tags = []) (h2 : p.tags_is_list = false) :
    (add_app_and_relations s p).tagLinks = s.tagLinks := by
  unfold add_app_and_relations
  simp [h1, h2]

theorem upsertApp_lookup_map_main (m : MainData) (idp : Int) :
    ∀ apps : List (Int × AppRow),
      ((upsertApp apps idp m).lookup idp).map (fun r => r.main) = some m := by
  intro apps
  induction apps with
  | nil => simp [upsertApp, List.lookup]
  | cons kv rest ih =>
    rcases kv with ⟨j, row⟩
    by_cases hj : j = idp
    · subst hj
      simp [upsertApp, List.lookup]
    · have hj' : (idp == j) = false := beq_eq_false_iff_ne.mpr (fun hh => hj hh.symm)
      simp [upsertApp, hj, List.lookup, hj', ih]

theorem processItem_success_nospy (cfg : Config) (env : Env) (db : DbState) (appid : Int)
    (d : AppDetails)
    (hproc : is_processed db.cur appid = false)
    (hdet : env.detail appid = some d)
    (hkind : d.type = some "game" ∨ d.type = some "dlc")
    (hspy : (cfg.use_steamspy && d.type == some "game") = false)
    (hfail : env.dbFailOn appid = false) :
    processItem cfg env db appid =
      (let parsed := parse_app_data d none
       let db1 := commitDb { db with cur := add_app_and_relations db.cur parsed }
       let db2 :=
         if (parsed.base_game_id.getD 0) ≠ 0 then
           { db1 with cur := add_pending_dlc_link db1.cur appid (parsed.base_game_id.getD 0) }
         else db1
       let achGate := d.type == some "game" && decide (parsed.main.achievements_count > 0)
       let db3 :=
         if achGate then
           commitDb { db2 with cur := add_achievements db2.cur (env.achievements appid) }
         else db2
       let db4 := { db3 with cur := add_reviews db3.cur (env.reviews appid) (toString appid) }
       let db5 := commitDb { db4 with cur := mark_as_processed db4.cur appid "success" }
       { db := db5
         events := [Event.detailFetch appid]
           ++ (if achGate then [Event.achFetch appid] else [])
           ++ [Event.reviewFetch appid]
         failed := false, newlyProcessed := true }) := by
  rcases hkind with hk | hk
  · rw [hk] at hspy
    simp only [beq_self_eq_true, Bool.and_true] at hspy
    simp [processItem, hproc, hdet, hk, hspy, hfail]
  · simp [processItem, hproc, hdet, hk, hfail]

/-- C10: for an addon (`dlc`) item — and likewise for a primary item
when the enrichment setting is off — the SteamSpy fetch is never
issued, the normalized record keeps the default enrichment fields
(positive/negative reviews, peak CCU, estimated owners, user score,
score rank), the tag-weight map is empty, the stored row is exactly the
spy-less parse, and no tag-link rows are written. -/
theorem c10_no_enrichment (cfg : Config) (env : Env) (db : DbState) (appid : Int)
    (d : AppDetails)
    (hproc : is_processed db.cur appid = false)
    (hdet : env.detail appid = some d)
    (hid : d.steam_appid = appid)
    (hfail : env.dbFailOn appid = false)
    (hkind : d.type = some "dlc" ∨ (d.type = some "game" ∧ cfg.use_steamspy = false)) :
    Event.spyFetch appid ∉ (processItem cfg env db appid).events ∧
    enrichFields (parse_app_data d none).main = (0, 0, 0, none, 0, none) ∧
    (parse_app_data d none).tags = [] ∧
    ((processItem cfg env db appid).db.cur.apps.lookup appid).map (fun r => r.main)
      = some (parse_app_data d none).main ∧
    (processItem cfg env db appid).db.cur.tagLinks = db.cur.tagLinks := by
  have hkind' : d.type = some "game" ∨ d.type = some "dlc" := by
    rcases hkind with h | h
    · exact Or.inr h
    · exact Or.inl h.1
  have hspy : (cfg.use_steamspy && d.type == some "game") = false := by
    rcases hkind with h | h
    · simp [h]
    · simp [h.1, h.2]
  have hchar := processItem_success_nospy cfg env db appid d hproc hdet hkind' hspy hfail
  refine ⟨?_, parse_none_enrich d, rfl, ?_, ?_⟩
  · intro hmem
    rw [hchar] at hmem
    simp only at hmem
    rcases List.mem_append.mp hmem with hmem | hmem
    · rcases List.mem_append.mp hmem with hmem | hmem
      · exact Event.noConfusion (List.mem_singleton.mp hmem)
      · exact Event.noConfusion (mem_of_if_singleton hmem)
    · exact Event.noConfusion (List.mem_singleton.mp hmem)
  · rw [hchar]
    simp only [commitDb_cur, mark_as_processed_apps, add_reviews_apps,
      apply_ite (fun x : DbState => x.cur.apps), add_achievements_apps, add_pending_apps,
      ite_self, add_app_and_relations_apps]
    rw [parse_main_id, hid]
    exact upsertApp_lookup_map_main _ appid db.cur.apps
  · rw [hchar]
    simp only [commitDb_cur, mark_as_processed_tagLinks, add_reviews_tagLinks,
      apply_ite (fun x : DbState => x.cur.tagLinks), add_achievements_tagLinks,
      add_pending_tagLinks, ite_self]
    exact add_app_and_relations_tagLinks_of_empty db.cur _ rfl rfl

/-- C10 witness: `c10_no_enrichment` applied at a concrete addon item
with the enrichment setting enabled. -/
theorem c10_no_enrichment_witness :
    Event.spyFetch 4 ∉ (processItem cfgSpy envDlc dbEmpty 4).events :=
  (c10_no_enrichment cfgSpy envDlc dbEmpty 4 (mkDetails 4 (some "dlc"))
    rfl rfl rfl rfl (Or.inl rfl)).1

end GameRec
